import Mathlib

/-!
Verification development for `src/frontend/slice_avatars.py`.

The script slices one source image into four quadrant images and saves them
under fixed names into a destination directory.  We embed the image data,
the crop operation (PIL semantics: box `(left, upper, right, lower)`,
half-open on the right/bottom), the literal `avatars` list of the script,
and the whole top-level run as a trace of filesystem/console events,
parameterised by an environment describing the external world (whether the
Pillow import succeeds, the result of `Image.open`, and whether each
`crop.save` call raises).
-/

/-- A decoded bitmap: dimensions plus a pixel function (pixel values as
natural numbers; only coordinates below the dimensions are meaningful). -/
structure Image where
  width : Nat
  height : Nat
  pixel : Nat → Nat → Nat

/-- PIL `img.crop((x1, y1, x2, y2))`: the region including `(x1, y1)` and
excluding `(x2, y2)`; the result has size `(x2 - x1, y2 - y1)` and its pixel
`(x, y)` is the source pixel `(x1 + x, y1 + y)`. -/
def Image.crop (img : Image) (x1 y1 x2 y2 : Nat) : Image :=
  { width := x2 - x1
    height := y2 - y1
    pixel := fun x y => img.pixel (x1 + x) (y1 + y) }

/-- The hard-coded source path of the script (line 6). -/
def source_path : String :=
  "/Users/tonyli@sphnet.com.sg/.gemini/antigravity/brain/f71349b7-37e0-4062-a965-0681c9c1ee7e/pixel_art_avatar_set_1769688752696.png"

/-- The hard-coded destination directory of the script (line 7). -/
def dest_dir : String := "public/avatars"

/-- A quadrant descriptor `(x1, y1, x2, y2, output-name)`, as in the
script's `avatars` list. -/
abbrev Quad := Nat × Nat × Nat × Nat × String

def Quad.x1 (q : Quad) : Nat := q.1

def Quad.y1 (q : Quad) : Nat := q.2.1

def Quad.x2 (q : Quad) : Nat := q.2.2.1

def Quad.y2 (q : Quad) : Nat := q.2.2.2.1

def Quad.name (q : Quad) : String := q.2.2.2.2

/-- The literal `avatars` list of the script (lines 16-23), with
`w = width // 2` and `h = height // 2` (integer floor division). -/
def avatars (width height : Nat) : List Quad :=
  let w := width / 2
  let h := height / 2
  [ (0, 0, w, h, "technical_architect.png"),
    (w, 0, width, h, "researcher.png"),
    (0, h, w, height, "cvpr_researcher.png"),
    (w, h, width, height, "critical_reviewer.png") ]

/-- `img.crop` applied to the rectangle of a quadrant descriptor
(line 26 of the script). -/
def cropOf (img : Image) (q : Quad) : Image :=
  img.crop q.x1 q.y1 q.x2 q.y2

/-- The point `(x, y)` lies in the (half-open) crop rectangle of `q`. -/
abbrev inRect (x y : Nat) (q : Quad) : Prop :=
  q.x1 ≤ x ∧ x < q.x2 ∧ q.y1 ≤ y ∧ y < q.y2

/-- `os.path.join(dir, name)` for the paths used here. -/
def pathJoin (dir name : String) : String := dir ++ "/" ++ name

/-- Helper for `ancestors`: walks the remaining characters, emitting the
accumulated prefix at every path separator and at the end. -/
def ancestorsGo : List Char → List Char → List String
  | [], acc => [String.mk acc.reverse]
  | c :: rest, acc =>
    if c = '/' then String.mk acc.reverse :: ancestorsGo rest (c :: acc)
    else ancestorsGo rest (c :: acc)

/-- The proper prefixes of a path up to and including the path itself:
`os.makedirs` creates all of them. -/
def ancestors (p : String) : List String := ancestorsGo p.data []

/-- The filesystem as seen by the script: a set of existing directories and
a map from paths to saved image contents. -/
structure FS where
  dirs : List String
  files : String → Option Image

/-- One observable step of the run. -/
inductive Event where
  | mkdirs (path : String)
  | save (path : String) (img : Image)
  | println (line : String)
  | exitCode (code : Nat)

/-- Effect of one event on the filesystem: `mkdirs` adds the directory and
all its parents, `save` overwrites the file at its path, console and exit
events leave the filesystem unchanged. -/
def applyEvent (fs : FS) : Event → FS
  | Event.mkdirs p => { fs with dirs := ancestors p ++ fs.dirs }
  | Event.save p img =>
      { fs with files := fun q => if q = p then some img else fs.files q }
  | Event.println _ => fs
  | Event.exitCode _ => fs

/-- Folding a whole trace of events over an initial filesystem. -/
def applyEvents (fs : FS) (es : List Event) : FS := es.foldl applyEvent fs

/-- The external world a run happens in: whether `from PIL import Image`
succeeds, the outcome of `Image.open(source_path)` (the decoded image, or
the message of the raised exception), the outcome of the `k`-th
`crop.save` call (`none` = success, `some msg` = exception with message
`msg`), and the initial filesystem. -/
structure Env where
  pillowAvailable : Bool
  openResult : Except String Image
  saveErr : Nat → Option String
  fs0 : FS

/-- `Image.open` succeeded in this environment. -/
def openOk (env : Env) : Bool :=
  match env.openResult with
  | Except.ok _ => true
  | Except.error _ => false

/-- The confirmation line `print(f"Saved {name}")` of the script. -/
def savedLine (q : Quad) : String := "Saved " ++ q.name

/-- The error line `print(f"Error: {e}")` of the script. -/
def errLine (msg : String) : String := "Error: " ++ msg

/-- The `for x1, y1, x2, y2, name in avatars:` loop (lines 25-28): each
iteration crops, saves (which may raise), and prints a confirmation; if a
save raises, the `except Exception` handler prints the error and exits 1;
after the last iteration the script falls off the end with exit code 0. -/
def saveLoop (env : Env) (img : Image) : List Quad → Nat → List Event
  | [], _ => [Event.exitCode 0]
  | q :: rest, k =>
    match env.saveErr k with
    | some msg => [Event.println (errLine msg), Event.exitCode 1]
    | none =>
        Event.save (pathJoin dest_dir q.name) (cropOf img q)
          :: Event.println (savedLine q)
          :: saveLoop env img rest (k + 1)

/-- The body of the `try` block: create the destination directory if it does
not exist (lines 10-11), open the source image (line 13, may raise, caught
by `except Exception` which prints the error and exits 1), then run the
save loop over the `avatars` list. -/
def runTry (env : Env) : List Event :=
  let mk := if dest_dir ∈ env.fs0.dirs then [] else [Event.mkdirs dest_dir]
  match env.openResult with
  | Except.error msg => mk ++ [Event.println (errLine msg), Event.exitCode 1]
  | Except.ok img => mk ++ saveLoop env img (avatars img.width img.height) 0

/-- The whole script.  `from PIL import Image` is at line 1, before the
`try` block: if Pillow is unavailable the ImportError is unhandled (the
`except ImportError` handler at lines 30-32 only covers the `try` body,
where no import occurs), so the interpreter prints a traceback to stderr
and exits with code 1 without printing anything to stdout. -/
def run (env : Env) : List Event :=
  if env.pillowAvailable then runTry env else [Event.exitCode 1]

/-- Lines printed to stdout during a trace. -/
def output (es : List Event) : List String :=
  es.filterMap fun e =>
    match e with
    | Event.println s => some s
    | _ => none

/-- The process exit code of a trace (the first exit event; every complete
run trace contains exactly one). -/
def exitCodeOf (es : List Event) : Nat :=
  (es.filterMap fun e =>
    match e with
    | Event.exitCode c => some c
    | _ => none).headD 0

/-- Whether an event is a file write. -/
def isSave : Event → Bool
  | Event.save _ _ => true
  | _ => false

/-- Number of files written during a trace. -/
def savedCount (es : List Event) : Nat := (es.filter isSave).length

/-- The filesystem after running the script in environment `env`. -/
def finalFS (env : Env) : FS := applyEvents env.fs0 (run env)

/-- Membership in `avatars W H`, unfolded to the four literal descriptors. -/
theorem mem_avatars_iff (W H : Nat) (q : Quad) :
    q ∈ avatars W H ↔
      q = (0, 0, W / 2, H / 2, "technical_architect.png") ∨
      q = (W / 2, 0, W, H / 2, "researcher.png") ∨
      q = (0, H / 2, W / 2, H, "cvpr_researcher.png") ∨
      q = (W / 2, H / 2, W, H, "critical_reviewer.png") := by
  simp [avatars]

/-- Helper: for arbitrary dimensions, every in-bounds point lies in exactly
one of the four crop rectangles of the `avatars` list. -/
theorem avatars_tile_unique (W H x y : Nat) (hx : x < W) (hy : y < H) :
    ∃! q : Quad, q ∈ avatars W H ∧ inRect x y q := by
  by_cases hxw : x < W / 2 <;> by_cases hyh : y < H / 2
  · refine ⟨(0, 0, W / 2, H / 2, "technical_architect.png"),
      ⟨by rw [mem_avatars_iff]; tauto, ⟨Nat.zero_le x, hxw, Nat.zero_le y, hyh⟩⟩, ?_⟩
    rintro q ⟨hq, hr⟩
    rw [mem_avatars_iff] at hq
    rcases hq with h | h | h | h <;> subst h <;>
      simp only [inRect, Quad.x1, Quad.x2, Quad.y1, Quad.y2] at hr <;>
      obtain ⟨h1, h2, h3, h4⟩ := hr <;>
      first
      | rfl
      | (exfalso; omega)
  · refine ⟨(0, H / 2, W / 2, H, "cvpr_researcher.png"),
      ⟨by rw [mem_avatars_iff]; tauto,
       ⟨Nat.zero_le x, hxw, Nat.le_of_not_lt hyh, hy⟩⟩, ?_⟩
    rintro q ⟨hq, hr⟩
    rw [mem_avatars_iff] at hq
    rcases hq with h | h | h | h <;> subst h <;>
      simp only [inRect, Quad.x1, Quad.x2, Quad.y1, Quad.y2] at hr <;>
      obtain ⟨h1, h2, h3, h4⟩ := hr <;>
      first
      | rfl
      | (exfalso; omega)
  · refine ⟨(W / 2, 0, W, H / 2, "researcher.png"),
      ⟨by rw [mem_avatars_iff]; tauto,
       ⟨Nat.le_of_not_lt hxw, hx, Nat.zero_le y, hyh⟩⟩, ?_⟩
    rintro q ⟨hq, hr⟩
    rw [mem_avatars_iff] at hq
    rcases hq with h | h | h | h <;> subst h <;>
      simp only [inRect, Quad.x1, Quad.x2, Quad.y1, Quad.y2] at hr <;>
      obtain ⟨h1, h2, h3, h4⟩ := hr <;>
      first
      | rfl
      | (exfalso; omega)
  · refine ⟨(W / 2, H / 2, W, H, "critical_reviewer.png"),
      ⟨by rw [mem_avatars_iff]; tauto,
       ⟨Nat.le_of_not_lt hxw, hx, Nat.le_of_not_lt hyh, hy⟩⟩, ?_⟩
    rintro q ⟨hq, hr⟩
    rw [mem_avatars_iff] at hq
    rcases hq with h | h | h | h <;> subst h <;>
      simp only [inRect, Quad.x1, Quad.x2, Quad.y1, Quad.y2] at hr <;>
      obtain ⟨h1, h2, h3, h4⟩ := hr <;>
      first
      | rfl
      | (exfalso; omega)

/-- Helper: cropping reproduces the source pixel at every point of the
crop rectangle. -/
theorem cropOf_pixel_eq (img : Image) (q : Quad) (x y : Nat)
    (hr : inRect x y q) :
    (cropOf img q).pixel (x - q.x1) (y - q.y1) = img.pixel x y := by
  obtain ⟨h1, h2, h3, h4⟩ := hr
  show img.pixel (q.x1 + (x - q.x1)) (q.y1 + (y - q.y1)) = img.pixel x y
  have ex : q.x1 + (x - q.x1) = x := by omega
  have ey : q.y1 + (y - q.y1) = y := by omega
  rw [ex, ey]

/-- C1: for a source image of even width and even height, each of the four
crops has dimensions exactly (width/2, height/2), every in-bounds source
pixel lies in exactly one crop rectangle (no overlap, no gap), and each
crop's pixel content agrees with the source on its rectangle, so the four
outputs reconstruct the original image. -/
theorem even_dims_crops_tile_and_reconstruct (img : Image)
    (hW : img.width % 2 = 0) (hH : img.height % 2 = 0) :
    (∀ q ∈ avatars img.width img.height,
        (cropOf img q).width = img.width / 2 ∧
        (cropOf img q).height = img.height / 2) ∧
    (∀ x y, x < img.width → y < img.height →
        ∃! q : Quad, q ∈ avatars img.width img.height ∧ inRect x y q) ∧
    (∀ q ∈ avatars img.width img.height, ∀ x y, inRect x y q →
        (cropOf img q).pixel (x - q.x1) (y - q.y1) = img.pixel x y) := by
  refine ⟨?_, ?_, ?_⟩
  · intro q hq
    rw [mem_avatars_iff] at hq
    rcases hq with h | h | h | h <;> subst h <;>
      simp only [cropOf, Image.crop, Quad.x1, Quad.x2, Quad.y1, Quad.y2] <;>
      constructor <;> omega
  · intro x y hx hy
    exact avatars_tile_unique img.width img.height x y hx hy
  · intro q _ x y hr
    exact cropOf_pixel_eq img q x y hr

/-- A concrete 4×4 test image. -/
def testImg : Image := { width := 4, height := 4, pixel := fun x y => 10 * x + y }

/-- Witness for C1 at a concrete 4×4 image. -/
theorem even_dims_crops_tile_and_reconstruct_witness :
    testImg.width % 2 = 0 ∧ testImg.height % 2 = 0 ∧
    ((∀ q ∈ avatars testImg.width testImg.height,
        (cropOf testImg q).width = testImg.width / 2 ∧
        (cropOf testImg q).height = testImg.height / 2) ∧
    (∀ x y, x < testImg.width → y < testImg.height →
        ∃! q : Quad, q ∈ avatars testImg.width testImg.height ∧ inRect x y q) ∧
    (∀ q ∈ avatars testImg.width testImg.height, ∀ x y, inRect x y q →
        (cropOf testImg q).pixel (x - q.x1) (y - q.y1) = testImg.pixel x y)) :=
  ⟨by decide, by decide,
   even_dims_crops_tile_and_reconstruct testImg (by decide) (by decide)⟩

/-- C10: each of the four crop rectangles is well-ordered and lies within
the source bounds, for arbitrary dimensions. -/
theorem crop_rects_within_bounds (W H : Nat) (q : Quad) (hq : q ∈ avatars W H) :
    0 ≤ q.x1 ∧ q.x1 ≤ q.x2 ∧ q.x2 ≤ W ∧ 0 ≤ q.y1 ∧ q.y1 ≤ q.y2 ∧ q.y2 ≤ H := by
  rw [mem_avatars_iff] at hq
  rcases hq with h | h | h | h <;> subst h <;>
    simp only [Quad.x1, Quad.x2, Quad.y1, Quad.y2] <;>
    refine ⟨by omega, by omega, by omega, by omega, by omega, by omega⟩

/-- Witness for C10 at concrete dimensions 5×3 and the second descriptor. -/
theorem crop_rects_within_bounds_witness :
    (2, 0, 5, 1, "researcher.png") ∈ avatars 5 3 ∧
    (0 ≤ Quad.x1 (2, 0, 5, 1, "researcher.png") ∧
     Quad.x1 (2, 0, 5, 1, "researcher.png") ≤ Quad.x2 (2, 0, 5, 1, "researcher.png") ∧
     Quad.x2 (2, 0, 5, 1, "researcher.png") ≤ 5 ∧
     0 ≤ Quad.y1 (2, 0, 5, 1, "researcher.png") ∧
     Quad.y1 (2, 0, 5, 1, "researcher.png") ≤ Quad.y2 (2, 0, 5, 1, "researcher.png") ∧
     Quad.y2 (2, 0, 5, 1, "researcher.png") ≤ 3) :=
  ⟨by decide, crop_rects_within_bounds 5 3 (2, 0, 5, 1, "researcher.png") (by decide)⟩

/-- C3 counterexample: at the concrete odd dimensions 3×3 the four crop
rectangles cover every in-bounds pixel — no row or column of the source is
dropped, contrary to the claim that the crops of an odd-dimension image do
not tile it. -/
theorem odd_dims_no_pixel_dropped_3x3 :
    3 % 2 = 1 ∧ ∀ x < 3, ∀ y < 3, ∃ q ∈ avatars 3 3, inRect x y q := by
  decide

/-- C3 amended: for every source image, odd dimensions included, the four
crop rectangles exactly and disjointly tile the source rectangle — no pixel
is dropped.  Odd dimensions only make the quadrants unequal: a crop whose
rectangle reaches the right (resp. bottom) edge is one pixel wider (resp.
taller) than half the dimension. -/
theorem all_dims_tile_odd_quadrants_unequal (img : Image) :
    (∀ x y, x < img.width → y < img.height →
        ∃! q : Quad, q ∈ avatars img.width img.height ∧ inRect x y q) ∧
    (img.width % 2 = 1 →
        ∀ q ∈ avatars img.width img.height, q.x2 = img.width →
          (cropOf img q).width = img.width / 2 + 1) ∧
    (img.height % 2 = 1 →
        ∀ q ∈ avatars img.width img.height, q.y2 = img.height →
          (cropOf img q).height = img.height / 2 + 1) := by
  refine ⟨?_, ?_, ?_⟩
  · intro x y hx hy
    exact avatars_tile_unique img.width img.height x y hx hy
  · intro hW q hq hx2
    rw [mem_avatars_iff] at hq
    rcases hq with h | h | h | h <;> subst h <;>
      simp only [cropOf, Image.crop, Quad.x1, Quad.x2, Quad.y1, Quad.y2] at hx2 ⊢ <;>
      omega
  · intro hH q hq hy2
    rw [mem_avatars_iff] at hq
    rcases hq with h | h | h | h <;> subst h <;>
      simp only [cropOf, Image.crop, Quad.x1, Quad.x2, Quad.y1, Quad.y2] at hy2 ⊢ <;>
      omega

/-- A concrete 3×3 test image with both dimensions odd. -/
def testImgOdd : Image := { width := 3, height := 3, pixel := fun x y => 4 * x + y }

/-- Witness for the amended C3 at a concrete 3×3 image. -/
theorem all_dims_tile_odd_quadrants_unequal_witness :
    (∀ x y, x < testImgOdd.width → y < testImgOdd.height →
        ∃! q : Quad, q ∈ avatars testImgOdd.width testImgOdd.height ∧ inRect x y q) ∧
    (testImgOdd.width % 2 = 1 →
        ∀ q ∈ avatars testImgOdd.width testImgOdd.height, q.x2 = testImgOdd.width →
          (cropOf testImgOdd q).width = testImgOdd.width / 2 + 1) ∧
    (testImgOdd.height % 2 = 1 →
        ∀ q ∈ avatars testImgOdd.width testImgOdd.height, q.y2 = testImgOdd.height →
          (cropOf testImgOdd q).height = testImgOdd.height / 2 + 1) :=
  all_dims_tile_odd_quadrants_unequal testImgOdd

/-- Folding events over an appended trace splits into two folds. -/
theorem applyEvents_append (fs : FS) (a b : List Event) :
    applyEvents fs (a ++ b) = applyEvents (applyEvents fs a) b := by
  simp [applyEvents, List.foldl_append]

/-- Directories are never removed: events only add to `dirs`. -/
theorem dirs_mono : ∀ (es : List Event) (fs : FS) (d : String), d ∈ fs.dirs →
    d ∈ (applyEvents fs es).dirs
  | [], _, _, hd => hd
  | e :: rest, fs, d, hd => by
    have h2 : d ∈ (applyEvent fs e).dirs := by
      cases e with
      | mkdirs p => exact List.mem_append_right _ hd
      | save p img => exact hd
      | println s => exact hd
      | exitCode c => exact hd
    exact dirs_mono rest (applyEvent fs e) d h2

/-- The files component after a trace depends only on the initial files
component (directory state never feeds back into file contents). -/
theorem applyEvents_files_congr : ∀ (es : List Event) (fs1 fs2 : FS),
    fs1.files = fs2.files →
    (applyEvents fs1 es).files = (applyEvents fs2 es).files
  | [], _, _, h => h
  | e :: rest, fs1, fs2, h => by
    apply applyEvents_files_congr rest
    cases e with
    | mkdirs p => exact h
    | save p img => funext q; simp [applyEvent, h]
    | println s => exact h
    | exitCode c => exact h

/-- The optional leading `mkdirs` event does not touch file contents. -/
theorem applyEvents_mk_files (fs : FS) (c : Prop) [Decidable c] (es : List Event) :
    (applyEvents fs ((if c then [] else [Event.mkdirs dest_dir]) ++ es)).files
      = (applyEvents fs es).files := by
  split
  · rfl
  · exact applyEvents_files_congr es (applyEvent fs (Event.mkdirs dest_dir)) fs rfl

/-- The optional leading `mkdirs` event prints nothing. -/
theorem output_mk (c : Prop) [Decidable c] (es : List Event) :
    output ((if c then [] else [Event.mkdirs dest_dir]) ++ es) = output es := by
  split <;> simp [output]

/-- The optional leading `mkdirs` event does not carry an exit code. -/
theorem exitCodeOf_mk (c : Prop) [Decidable c] (es : List Event) :
    exitCodeOf ((if c then [] else [Event.mkdirs dest_dir]) ++ es) = exitCodeOf es := by
  split <;> simp [exitCodeOf]

/-- The optional leading `mkdirs` event writes no file. -/
theorem savedCount_mk (c : Prop) [Decidable c] (es : List Event) :
    savedCount ((if c then [] else [Event.mkdirs dest_dir]) ++ es) = savedCount es := by
  split <;> simp [savedCount, isSave]

/-- A leading save event does not determine the exit code. -/
theorem exitCodeOf_cons_save (p : String) (i : Image) (es : List Event) :
    exitCodeOf (Event.save p i :: es) = exitCodeOf es := rfl

/-- A leading console line does not determine the exit code. -/
theorem exitCodeOf_cons_println (s : String) (es : List Event) :
    exitCodeOf (Event.println s :: es) = exitCodeOf es := rfl

/-- A leading mkdirs event does not determine the exit code. -/
theorem exitCodeOf_cons_mkdirs (p : String) (es : List Event) :
    exitCodeOf (Event.mkdirs p :: es) = exitCodeOf es := rfl

/-- The first exit event fixes the exit code of the trace. -/
theorem exitCodeOf_cons_exit (c : Nat) (es : List Event) :
    exitCodeOf (Event.exitCode c :: es) = c := rfl

/-- A leading save event increments the saved-file count. -/
theorem savedCount_cons_save (p : String) (i : Image) (es : List Event) :
    savedCount (Event.save p i :: es) = savedCount es + 1 := by
  simp [savedCount, isSave]

/-- A leading console line does not change the saved-file count. -/
theorem savedCount_cons_println (s : String) (es : List Event) :
    savedCount (Event.println s :: es) = savedCount es := by
  simp [savedCount, isSave]

/-- A leading mkdirs event does not change the saved-file count. -/
theorem savedCount_cons_mkdirs (p : String) (es : List Event) :
    savedCount (Event.mkdirs p :: es) = savedCount es := by
  simp [savedCount, isSave]

/-- An exit event does not change the saved-file count. -/
theorem savedCount_cons_exit (c : Nat) (es : List Event) :
    savedCount (Event.exitCode c :: es) = savedCount es := by
  simp [savedCount, isSave]

/-- The empty trace saved nothing. -/
theorem savedCount_nil : savedCount [] = 0 := rfl

/-- The save loop exits with code 0 exactly when it saved one file per
remaining quadrant descriptor. -/
theorem saveLoop_exit_zero_iff (env : Env) (img : Image) :
    ∀ (l : List Quad) (k : Nat),
      exitCodeOf (saveLoop env img l k) = 0 ↔
        savedCount (saveLoop env img l k) = l.length := by
  intro l
  induction l with
  | nil =>
    intro k
    simp [saveLoop, exitCodeOf, savedCount, isSave]
  | cons q rest ih =>
    intro k
    cases hk : env.saveErr k with
    | some msg =>
      simp only [saveLoop, hk, exitCodeOf_cons_println, exitCodeOf_cons_exit,
        savedCount_cons_println, savedCount_cons_exit, savedCount_nil,
        List.length_cons]
      omega
    | none =>
      simp only [saveLoop, hk, exitCodeOf_cons_save, exitCodeOf_cons_println,
        savedCount_cons_save, savedCount_cons_println, List.length_cons,
        ih (k + 1)]
      omega

/-- The explicit event trace of a fully successful run. -/
theorem run_success_trace (env : Env) (img : Image)
    (hp : env.pillowAvailable = true)
    (ho : env.openResult = Except.ok img)
    (h0 : env.saveErr 0 = none) (h1 : env.saveErr 1 = none)
    (h2 : env.saveErr 2 = none) (h3 : env.saveErr 3 = none) :
    run env = (if dest_dir ∈ env.fs0.dirs then [] else [Event.mkdirs dest_dir]) ++
      [Event.save (pathJoin dest_dir "technical_architect.png")
          (img.crop 0 0 (img.width / 2) (img.height / 2)),
       Event.println "Saved technical_architect.png",
       Event.save (pathJoin dest_dir "researcher.png")
          (img.crop (img.width / 2) 0 img.width (img.height / 2)),
       Event.println "Saved researcher.png",
       Event.save (pathJoin dest_dir "cvpr_researcher.png")
          (img.crop 0 (img.height / 2) (img.width / 2) img.height),
       Event.println "Saved cvpr_researcher.png",
       Event.save (pathJoin dest_dir "critical_reviewer.png")
          (img.crop (img.width / 2) (img.height / 2) img.width img.height),
       Event.println "Saved critical_reviewer.png",
       Event.exitCode 0] := by
  simp [run, hp, runTry, ho, avatars, saveLoop, h0, h1, h2, h3, cropOf,
    savedLine, Quad.x1, Quad.y1, Quad.x2, Quad.y2, Quad.name]

/-- The explicit event trace of a run whose `Image.open` raises. -/
theorem run_open_error_trace (env : Env) (msg : String)
    (hp : env.pillowAvailable = true)
    (ho : env.openResult = Except.error msg) :
    run env = (if dest_dir ∈ env.fs0.dirs then [] else [Event.mkdirs dest_dir]) ++
      [Event.println (errLine msg), Event.exitCode 1] := by
  simp [run, hp, runTry, ho]

/-- C2: on a successful run the program computes `w = width // 2` and
`h = height // 2` by floor division, crops exactly the four fixed
rectangles, and writes them under the four fixed names into the
destination directory, overwriting whatever the initial filesystem held at
those paths; one confirmation line per file is printed and the exit code
is 0. -/
theorem run_success_saves_four_crops (env : Env) (img : Image)
    (hp : env.pillowAvailable = true)
    (ho : env.openResult = Except.ok img)
    (hs : ∀ k, env.saveErr k = none) :
    (finalFS env).files (pathJoin dest_dir "technical_architect.png")
        = some (img.crop 0 0 (img.width / 2) (img.height / 2)) ∧
    (finalFS env).files (pathJoin dest_dir "researcher.png")
        = some (img.crop (img.width / 2) 0 img.width (img.height / 2)) ∧
    (finalFS env).files (pathJoin dest_dir "cvpr_researcher.png")
        = some (img.crop 0 (img.height / 2) (img.width / 2) img.height) ∧
    (finalFS env).files (pathJoin dest_dir "critical_reviewer.png")
        = some (img.crop (img.width / 2) (img.height / 2) img.width img.height) ∧
    output (run env) = ["Saved technical_architect.png", "Saved researcher.png",
        "Saved cvpr_researcher.png", "Saved critical_reviewer.png"] ∧
    exitCodeOf (run env) = 0 := by
  have tr := run_success_trace env img hp ho (hs 0) (hs 1) (hs 2) (hs 3)
  unfold finalFS
  rw [tr, applyEvents_mk_files, output_mk, exitCodeOf_mk]
  refine ⟨?_, ?_, ?_, ?_, ?_, ?_⟩ <;>
    simp +decide [applyEvents, applyEvent, output, exitCodeOf, pathJoin, dest_dir]

/-- C5 (code evaluation): when Pillow is unavailable the import at line 1
fails before the `try` block, so nothing is printed to stdout — in
particular not the installation hint of the unreachable handler — and the
interpreter exits with code 1. -/
theorem pillow_missing_no_hint_exit1 (env : Env)
    (hp : env.pillowAvailable = false) :
    run env = [Event.exitCode 1] ∧ output (run env) = [] ∧
    exitCodeOf (run env) = 1 := by
  refine ⟨?_, ?_, ?_⟩ <;> simp [run, hp, output, exitCodeOf]

/-- C6: if opening the source image fails, the run exits with code 1,
writes no file, and leaves every file of the initial filesystem unchanged. -/
theorem open_fail_exit1_no_files (env : Env) (msg : String)
    (ho : env.openResult = Except.error msg) :
    exitCodeOf (run env) = 1 ∧ savedCount (run env) = 0 ∧
    (finalFS env).files = env.fs0.files := by
  cases hp : env.pillowAvailable with
  | false =>
    refine ⟨?_, ?_, ?_⟩ <;>
      simp [run, hp, finalFS, applyEvents, applyEvent, exitCodeOf, savedCount,
        isSave]
  | true =>
    have tr := run_open_error_trace env msg hp ho
    unfold finalFS
    rw [tr, applyEvents_mk_files, exitCodeOf_mk, savedCount_mk]
    refine ⟨rfl, rfl, rfl⟩

/-- The empty initial filesystem. -/
def emptyFS : FS := { dirs := [], files := fun _ => none }

/-- A concrete environment in which everything succeeds, starting from an
empty filesystem. -/
def env_ok : Env :=
  { pillowAvailable := true
    openResult := Except.ok testImg
    saveErr := fun _ => none
    fs0 := emptyFS }

/-- A concrete environment in which Pillow is not installed. -/
def envNoPillow : Env :=
  { pillowAvailable := false
    openResult := Except.error "No module named PIL"
    saveErr := fun _ => none
    fs0 := emptyFS }

/-- A concrete environment in which the source image does not exist. -/
def envNoSource : Env :=
  { pillowAvailable := true
    openResult := Except.error "No such file or directory"
    saveErr := fun _ => none
    fs0 := emptyFS }

/-- Witness for C2 at the concrete all-success environment. -/
theorem run_success_saves_four_crops_witness :
    env_ok.pillowAvailable = true ∧
    env_ok.openResult = Except.ok testImg ∧
    (∀ k, env_ok.saveErr k = none) ∧
    ((finalFS env_ok).files (pathJoin dest_dir "technical_architect.png")
        = some (testImg.crop 0 0 (testImg.width / 2) (testImg.height / 2)) ∧
    (finalFS env_ok).files (pathJoin dest_dir "researcher.png")
        = some (testImg.crop (testImg.width / 2) 0 testImg.width (testImg.height / 2)) ∧
    (finalFS env_ok).files (pathJoin dest_dir "cvpr_researcher.png")
        = some (testImg.crop 0 (testImg.height / 2) (testImg.width / 2) testImg.height) ∧
    (finalFS env_ok).files (pathJoin dest_dir "critical_reviewer.png")
        = some (testImg.crop (testImg.width / 2) (testImg.height / 2) testImg.width testImg.height) ∧
    output (run env_ok) = ["Saved technical_architect.png", "Saved researcher.png",
        "Saved cvpr_researcher.png", "Saved critical_reviewer.png"] ∧
    exitCodeOf (run env_ok) = 0) :=
  ⟨rfl, rfl, fun _ => rfl,
   run_success_saves_four_crops env_ok testImg rfl rfl (fun _ => rfl)⟩

/-- Witness for C5 at the concrete Pillow-missing environment. -/
theorem pillow_missing_no_hint_exit1_witness :
    envNoPillow.pillowAvailable = false ∧
    (run envNoPillow = [Event.exitCode 1] ∧ output (run envNoPillow) = [] ∧
     exitCodeOf (run envNoPillow) = 1) :=
  ⟨rfl, pillow_missing_no_hint_exit1 envNoPillow rfl⟩

/-- Witness for C6 at the concrete missing-source environment. -/
theorem open_fail_exit1_no_files_witness :
    envNoSource.openResult = Except.error "No such file or directory" ∧
    (exitCodeOf (run envNoSource) = 1 ∧ savedCount (run envNoSource) = 0 ∧
     (finalFS envNoSource).files = envNoSource.fs0.files) :=
  ⟨rfl, open_fail_exit1_no_files envNoSource "No such file or directory" rfl⟩

/-- A confirmation line is never an error line (they differ already in
their first character). -/
theorem savedLine_ne_errLine (q : Quad) (msg : String) :
    savedLine q ≠ errLine msg := by
  intro h
  have hd : ("Saved " ++ q.name).data = ("Error: " ++ msg).data :=
    congrArg String.data h
  rw [String.data_append, String.data_append] at hd
  have hd2 : 'S' :: ("aved ".data ++ q.name.data)
      = 'E' :: ("rror: ".data ++ msg.data) := hd
  injection hd2 with hc _
  exact absurd hc (by decide)

/-- The save and confirmation events emitted for a list of quadrant
descriptors. -/
def saveEventsFor (img : Image) (l : List Quad) : List Event :=
  l.foldr (fun q acc =>
    Event.save (pathJoin dest_dir q.name) (cropOf img q)
      :: Event.println (savedLine q) :: acc) []

/-- The explicit event trace of a run whose first failing save is the
`k`-th, 0-indexed, for `k < 4`: the first `k` quadrants are saved and
confirmed, then the error is printed and the process exits with code 1. -/
theorem run_save_fail_trace (env : Env) (img : Image) (k : Nat) (msg : String)
    (hp : env.pillowAvailable = true)
    (ho : env.openResult = Except.ok img)
    (hpre : ∀ j, j < k → env.saveErr j = none)
    (hk : env.saveErr k = some msg)
    (hk4 : k < 4) :
    run env = (if dest_dir ∈ env.fs0.dirs then [] else [Event.mkdirs dest_dir]) ++
      (saveEventsFor img ((avatars img.width img.height).take k) ++
       [Event.println (errLine msg), Event.exitCode 1]) := by
  interval_cases k
  · simp [run, hp, runTry, ho, avatars, saveLoop, saveEventsFor, hk]
  · simp [run, hp, runTry, ho, avatars, saveLoop, saveEventsFor, hk,
      hpre 0 (by omega)]
  · simp [run, hp, runTry, ho, avatars, saveLoop, saveEventsFor, hk,
      hpre 0 (by omega), hpre 1 (by omega)]
  · simp [run, hp, runTry, ho, avatars, saveLoop, saveEventsFor, hk,
      hpre 0 (by omega), hpre 1 (by omega), hpre 2 (by omega)]

/-- Paths never saved in a trace keep their initial contents. -/
theorem files_unwritten_eq : ∀ (es : List Event) (fs : FS) (p : String),
    (∀ i : Image, Event.save p i ∉ es) →
    (applyEvents fs es).files p = fs.files p
  | [], _, _, _ => rfl
  | e :: rest, fs, p, h => by
    have hrest : ∀ i : Image, Event.save p i ∉ rest := by
      intro i hi
      exact h i (List.mem_cons_of_mem e hi)
    have step : (applyEvent fs e).files p = fs.files p := by
      cases e with
      | mkdirs q => rfl
      | println s => rfl
      | exitCode c => rfl
      | save q i =>
        have hne : p ≠ q := by
          intro hpq
          exact h i (by rw [hpq]; exact List.mem_cons_self _ _)
        simp [applyEvent, hne]
    calc (applyEvents fs (e :: rest)).files p
        = (applyEvents (applyEvent fs e) rest).files p := rfl
      _ = (applyEvent fs e).files p :=
          files_unwritten_eq rest (applyEvent fs e) p hrest
      _ = fs.files p := step

/-- Replaying a trace from two filesystems that agree on every path the
trace never saves yields the same final file contents. -/
theorem applyEvents_files_eq_of_agree : ∀ (es : List Event) (fs1 fs2 : FS),
    (∀ p : String, (∀ i : Image, Event.save p i ∉ es) →
        fs1.files p = fs2.files p) →
    (applyEvents fs1 es).files = (applyEvents fs2 es).files
  | [], fs1, fs2, h => by
    funext p
    exact h p (fun i hi => absurd hi (List.not_mem_nil _))
  | e :: rest, fs1, fs2, h => by
    apply applyEvents_files_eq_of_agree rest
    intro p hp
    cases e with
    | save q i =>
      by_cases hpq : p = q
      · subst hpq
        simp [applyEvent]
      · simp only [applyEvent]
        rw [if_neg hpq, if_neg hpq]
        apply h p
        intro i2 hi2
        rcases List.mem_cons.mp hi2 with hh | hh
        · injection hh with h1 h2
          exact hpq h1
        · exact hp i2 hh
    | mkdirs q =>
      apply h p
      intro i2 hi2
      rcases List.mem_cons.mp hi2 with hh | hh
      · exact Event.noConfusion hh
      · exact hp i2 hh
    | println s =>
      apply h p
      intro i2 hi2
      rcases List.mem_cons.mp hi2 with hh | hh
      · exact Event.noConfusion hh
      · exact hp i2 hh
    | exitCode c =>
      apply h p
      intro i2 hi2
      rcases List.mem_cons.mp hi2 with hh | hh
      · exact Event.noConfusion hh
      · exact hp i2 hh

/-- The destination directory is one of its own ancestors. -/
theorem dest_mem_ancestors : dest_dir ∈ ancestors dest_dir := by decide

/-- Whenever the script body runs at all (Pillow present), the destination
directory exists in the final filesystem: it either already existed (and is
never removed) or is created by the initial `makedirs`. -/
theorem dest_dir_in_final_dirs (env : Env)
    (hp : env.pillowAvailable = true) :
    dest_dir ∈ (finalFS env).dirs := by
  unfold finalFS
  by_cases hd : dest_dir ∈ env.fs0.dirs
  · exact dirs_mono _ _ _ hd
  · have hrun : ∃ tail, run env = Event.mkdirs dest_dir :: tail := by
      cases ho : env.openResult with
      | error msg =>
        exact ⟨[Event.println (errLine msg), Event.exitCode 1],
          by simp [run, hp, runTry, ho, hd]⟩
      | ok img =>
        exact ⟨saveLoop env img (avatars img.width img.height) 0,
          by simp [run, hp, runTry, ho, hd]⟩
    obtain ⟨tail, htail⟩ := hrun
    rw [htail]
    show dest_dir ∈
      (applyEvents (applyEvent env.fs0 (Event.mkdirs dest_dir)) tail).dirs
    exact dirs_mono _ _ _ (List.mem_append_left _ dest_mem_ancestors)

/-- A save event prints nothing. -/
theorem output_cons_save (p : String) (i : Image) (es : List Event) :
    output (Event.save p i :: es) = output es := rfl

/-- A println event contributes its line to the output. -/
theorem output_cons_println (s : String) (es : List Event) :
    output (Event.println s :: es) = s :: output es := rfl

/-- The save-and-confirm events for a descriptor list print exactly one
confirmation line per descriptor, in order. -/
theorem output_saveEventsFor (img : Image) :
    ∀ (l : List Quad) (es : List Event),
      output (saveEventsFor img l ++ es) = l.map savedLine ++ output es
  | [], _ => rfl
  | q :: rest, es =>
      congrArg (List.cons (savedLine q)) (output_saveEventsFor img rest es)

/-- C4: the exit code is 0 exactly when all four files were saved; and when
an exception other than a missing Pillow is raised — the open failing, or
the first failing save — the printed output consists of the confirmations
already emitted followed by exactly one error line carrying the
exception's message, and the exit code is 1. -/
theorem exit_zero_iff_all_saved_and_single_error (env : Env) :
    (exitCodeOf (run env) = 0 ↔ savedCount (run env) = 4) ∧
    (∀ msg, env.pillowAvailable = true → env.openResult = Except.error msg →
        output (run env) = [errLine msg] ∧ exitCodeOf (run env) = 1) ∧
    (∀ (img : Image) (k : Nat) (msg : String), env.pillowAvailable = true →
        env.openResult = Except.ok img →
        (∀ j, j < k → env.saveErr j = none) →
        env.saveErr k = some msg → k < 4 →
        output (run env)
            = ((avatars img.width img.height).take k).map savedLine
              ++ [errLine msg] ∧
        errLine msg ∉ ((avatars img.width img.height).take k).map savedLine ∧
        exitCodeOf (run env) = 1) := by
  refine ⟨?_, ?_, ?_⟩
  · cases hp : env.pillowAvailable with
    | false =>
      have hrun : run env = [Event.exitCode 1] := by simp [run, hp]
      rw [hrun, exitCodeOf_cons_exit, savedCount_cons_exit, savedCount_nil]
      omega
    | true =>
      cases ho : env.openResult with
      | error msg =>
        have tr := run_open_error_trace env msg hp ho
        rw [tr, exitCodeOf_mk, savedCount_mk, exitCodeOf_cons_println,
          exitCodeOf_cons_exit, savedCount_cons_println, savedCount_cons_exit,
          savedCount_nil]
        omega
      | ok img =>
        have hrun : run env
            = (if dest_dir ∈ env.fs0.dirs then [] else [Event.mkdirs dest_dir])
              ++ saveLoop env img (avatars img.width img.height) 0 := by
          simp [run, hp, runTry, ho]
        rw [hrun, exitCodeOf_mk, savedCount_mk, saveLoop_exit_zero_iff]
        simp [avatars]
  · intro msg hp ho
    have tr := run_open_error_trace env msg hp ho
    rw [tr, output_mk, exitCodeOf_mk]
    exact ⟨rfl, rfl⟩
  · intro img k msg hp ho hpre hk hk4
    have tr := run_save_fail_trace env img k msg hp ho hpre hk hk4
    refine ⟨?_, ?_, ?_⟩
    · rw [tr, output_mk, output_saveEventsFor]
      rfl
    · intro hmem
      rcases List.mem_map.mp hmem with ⟨q, _, hq⟩
      exact savedLine_ne_errLine q msg hq
    · rw [tr, exitCodeOf_mk]
      have hex : ∀ (l : List Quad) (es : List Event),
          exitCodeOf (saveEventsFor img l ++ es) = exitCodeOf es := by
        intro l
        induction l with
        | nil => intro es; rfl
        | cons q rest ih => intro es; exact ih es
      rw [hex]
      rfl

/-- C7: every file write happens with the destination directory present,
and when the directory was absent at the start of the run, a `makedirs`
event — creating it together with all its parents — strictly precedes the
write. -/
theorem dir_created_before_any_write (env : Env) (i : Nat) (e : Event)
    (he : (run env)[i]? = some e)
    (hsv : isSave e = true) :
    (dest_dir ∉ env.fs0.dirs →
        ∃ j, j < i ∧ (run env)[j]? = some (Event.mkdirs dest_dir)) ∧
    dest_dir ∈ (applyEvents env.fs0 ((run env).take i)).dirs ∧
    (dest_dir ∉ env.fs0.dirs →
        ∀ d ∈ ancestors dest_dir,
          d ∈ (applyEvents env.fs0 ((run env).take i)).dirs) := by
  cases hp : env.pillowAvailable with
  | false =>
    have hrun : run env = [Event.exitCode 1] := by simp [run, hp]
    rw [hrun] at he
    cases i with
    | zero =>
      simp at he
      subst he
      simp [isSave] at hsv
    | succ n => simp at he
  | true =>
    by_cases hd : dest_dir ∈ env.fs0.dirs
    · exact ⟨fun habs => absurd hd habs,
        dirs_mono _ _ _ hd,
        fun habs => absurd hd habs⟩
    · have hrun : ∃ tail, run env = Event.mkdirs dest_dir :: tail := by
        cases ho : env.openResult with
        | error msg =>
          exact ⟨[Event.println (errLine msg), Event.exitCode 1],
            by simp [run, hp, runTry, ho, hd]⟩
        | ok img =>
          exact ⟨saveLoop env img (avatars img.width img.height) 0,
            by simp [run, hp, runTry, ho, hd]⟩
      obtain ⟨tail, htail⟩ := hrun
      cases i with
      | zero =>
        rw [htail] at he
        simp at he
        subst he
        simp [isSave] at hsv
      | succ n =>
        refine ⟨fun _ => ⟨0, Nat.succ_pos n, by rw [htail]; simp⟩, ?_, ?_⟩
        · rw [htail]
          show dest_dir ∈
            (applyEvents (applyEvent env.fs0 (Event.mkdirs dest_dir))
              (tail.take n)).dirs
          exact dirs_mono _ _ _ (List.mem_append_left _ dest_mem_ancestors)
        · intro _ d hdm
          rw [htail]
          show d ∈
            (applyEvents (applyEvent env.fs0 (Event.mkdirs dest_dir))
              (tail.take n)).dirs
          exact dirs_mono _ _ _ (List.mem_append_left _ hdm)

/-- C8: running the script a second time on the filesystem produced by a
successful first run yields exactly the same file contents — each of the
four outputs is overwritten with content equal to what the first run
wrote, and nothing else changes. -/
theorem run_twice_idempotent (env : Env) (img : Image)
    (hp : env.pillowAvailable = true)
    (ho : env.openResult = Except.ok img)
    (hs : ∀ k, env.saveErr k = none) :
    (finalFS { env with fs0 := finalFS env }).files = (finalFS env).files := by
  have tr1 := run_success_trace env img hp ho (hs 0) (hs 1) (hs 2) (hs 3)
  have tr2 := run_success_trace { env with fs0 := finalFS env } img hp ho
    (hs 0) (hs 1) (hs 2) (hs 3)
  unfold finalFS
  unfold finalFS at tr2
  rw [tr1] at tr2
  rw [tr1]
  rw [tr2]
  rw [applyEvents_mk_files, applyEvents_mk_files]
  apply applyEvents_files_eq_of_agree
  intro p hup
  change (applyEvents env.fs0 _).files p = env.fs0.files p
  rw [applyEvents_mk_files]
  exact files_unwritten_eq _ _ _ hup

/-- C9: error handling is not atomic.  If the save of the `k`-th quadrant
(0-indexed; the claim's k-th file, 1-indexed, with k−1 = this index) raises,
the files already written for the preceding quadrants remain on disk with
their cropped contents, the output consists of exactly one confirmation
line per file already written followed by the error line, and the
destination directory — created at the start of the run if absent — is
still present; likewise, when opening the source image fails, the
destination directory has still been created. -/
theorem partial_failure_leaves_prefix_state :
    (∀ (env : Env) (img : Image) (k : Nat) (msg : String),
        env.pillowAvailable = true →
        env.openResult = Except.ok img →
        (∀ j, j < k → env.saveErr j = none) →
        env.saveErr k = some msg → k < 4 →
        ((∀ q ∈ (avatars img.width img.height).take k,
            (finalFS env).files (pathJoin dest_dir q.name)
              = some (cropOf img q)) ∧
         output (run env)
            = ((avatars img.width img.height).take k).map savedLine
              ++ [errLine msg] ∧
         dest_dir ∈ (finalFS env).dirs)) ∧
    (∀ (env : Env) (msg : String),
        env.pillowAvailable = true →
        env.openResult = Except.error msg →
        dest_dir ∈ (finalFS env).dirs) := by
  constructor
  · intro env img k msg hp ho hpre hk hk4
    have tr := run_save_fail_trace env img k msg hp ho hpre hk hk4
    refine ⟨?_, ?_, dest_dir_in_final_dirs env hp⟩
    · intro q hq
      unfold finalFS
      rw [tr, applyEvents_mk_files]
      interval_cases k
      · simp [avatars] at hq
      · simp [avatars] at hq
        subst hq
        simp +decide [saveEventsFor, avatars, applyEvents, applyEvent,
          pathJoin, dest_dir, Quad.name]
      · simp [avatars] at hq
        rcases hq with hq | hq <;> subst hq <;>
          simp +decide [saveEventsFor, avatars, applyEvents, applyEvent,
            pathJoin, dest_dir, Quad.name]
      · simp [avatars] at hq
        rcases hq with hq | hq | hq <;> subst hq <;>
          simp +decide [saveEventsFor, avatars, applyEvents, applyEvent,
            pathJoin, dest_dir, Quad.name]
    · rw [tr, output_mk, output_saveEventsFor]
      rfl
  · intro env msg hp _
    exact dest_dir_in_final_dirs env hp

/-- A concrete environment whose third save (index 2) raises. -/
def envFailSave : Env :=
  { pillowAvailable := true
    openResult := Except.ok testImg
    saveErr := fun k => if k = 2 then some "disk full" else none
    fs0 := emptyFS }

/-- Witness for C4, instantiating its three parts at concrete
environments: the all-success run, a run with a missing source, and a run
whose third save raises. -/
theorem exit_zero_iff_all_saved_and_single_error_witness :
    (exitCodeOf (run env_ok) = 0 ↔ savedCount (run env_ok) = 4) ∧
    (output (run envNoSource) = [errLine "No such file or directory"] ∧
     exitCodeOf (run envNoSource) = 1) ∧
    (output (run envFailSave)
        = ((avatars testImg.width testImg.height).take 2).map savedLine
          ++ [errLine "disk full"] ∧
     errLine "disk full"
        ∉ ((avatars testImg.width testImg.height).take 2).map savedLine ∧
     exitCodeOf (run envFailSave) = 1) :=
  ⟨(exit_zero_iff_all_saved_and_single_error env_ok).1,
   (exit_zero_iff_all_saved_and_single_error envNoSource).2.1
     "No such file or directory" rfl rfl,
   (exit_zero_iff_all_saved_and_single_error envFailSave).2.2
     testImg 2 "disk full" rfl rfl (fun j hj => if_neg (by omega)) rfl
     (by omega)⟩

/-- Witness for C7 at the all-success environment: the event at index 1 is
the first file write, and the directory (with its parent) was created by
the event at index 0. -/
theorem dir_created_before_any_write_witness :
    (run env_ok)[1]? = some (Event.save (pathJoin dest_dir "technical_architect.png")
        (cropOf testImg (0, 0, 2, 2, "technical_architect.png"))) ∧
    isSave (Event.save (pathJoin dest_dir "technical_architect.png")
        (cropOf testImg (0, 0, 2, 2, "technical_architect.png"))) = true ∧
    ((dest_dir ∉ env_ok.fs0.dirs →
        ∃ j, j < 1 ∧ (run env_ok)[j]? = some (Event.mkdirs dest_dir)) ∧
     dest_dir ∈ (applyEvents env_ok.fs0 ((run env_ok).take 1)).dirs ∧
     (dest_dir ∉ env_ok.fs0.dirs →
        ∀ d ∈ ancestors dest_dir,
          d ∈ (applyEvents env_ok.fs0 ((run env_ok).take 1)).dirs)) := by
  have hre : (run env_ok)[1]?
      = some (Event.save (pathJoin dest_dir "technical_architect.png")
          (cropOf testImg (0, 0, 2, 2, "technical_architect.png"))) := rfl
  exact ⟨hre, rfl, dir_created_before_any_write env_ok 1 _ hre rfl⟩

/-- Witness for C8 at the all-success environment. -/
theorem run_twice_idempotent_witness :
    env_ok.pillowAvailable = true ∧
    env_ok.openResult = Except.ok testImg ∧
    (∀ k, env_ok.saveErr k = none) ∧
    (finalFS { env_ok with fs0 := finalFS env_ok }).files
      = (finalFS env_ok).files :=
  ⟨rfl, rfl, fun _ => rfl,
   run_twice_idempotent env_ok testImg rfl rfl (fun _ => rfl)⟩

/-- Witness for C9: the third save fails in `envFailSave`, leaving the
first two files on disk, two confirmation lines plus the error line, and
the created destination directory; and in `envNoSource` the open fails but
the directory is still created. -/
theorem partial_failure_leaves_prefix_state_witness :
    envFailSave.pillowAvailable = true ∧
    envFailSave.openResult = Except.ok testImg ∧
    (∀ j, j < 2 → envFailSave.saveErr j = none) ∧
    envFailSave.saveErr 2 = some "disk full" ∧
    2 < 4 ∧
    ((∀ q ∈ (avatars testImg.width testImg.height).take 2,
        (finalFS envFailSave).files (pathJoin dest_dir q.name)
          = some (cropOf testImg q)) ∧
     output (run envFailSave)
        = ((avatars testImg.width testImg.height).take 2).map savedLine
          ++ [errLine "disk full"] ∧
     dest_dir ∈ (finalFS envFailSave).dirs) ∧
    (envNoSource.pillowAvailable = true ∧
     envNoSource.openResult = Except.error "No such file or directory" ∧
     dest_dir ∈ (finalFS envNoSource).dirs) :=
  ⟨rfl, rfl, fun j hj => if_neg (by omega), rfl, by omega,
   partial_failure_leaves_prefix_state.1 envFailSave testImg 2 "disk full"
     rfl rfl (fun j hj => if_neg (by omega)) rfl (by omega),
   rfl, rfl,
   partial_failure_leaves_prefix_state.2 envNoSource
     "No such file or directory" rfl rfl⟩
